import Mathlib

/-!
Verification of `crates/swift-bridge-ir/src/parsed_extern_fn/to_swift_func.rs`.

The source defines three methods on `ParsedExternFn`:
`to_swift_param_names_and_types`, `to_swift_call_args` and `to_swift_return`.
Each walks `self.func.sig.inputs` (a list of `syn::FnArg`) or inspects
`self.func.sig.output` and renders Swift text.

Modelling choices, stated once here:
* A `syn` type is embedded as `Ty`: a built-in carrying its Rust and Swift
  spellings, a user-declared (handle-backed) type carrying its name, or a
  reference wrapper with a mutability flag.
* `to_token_stream().to_string()` on a type prints the tokens separated by
  single spaces (`&mut Foo` prints as `& mut Foo`), so
  `split_whitespace()` over that text recovers exactly the token list with
  empty tokens dropped.  We therefore keep the token text as a `List String`
  (`Ty.tokenList`) and model `split_whitespace().last()` as the last
  nonempty entry of that list.
* Patterns in extern declarations are plain identifiers; `Pat` carries the
  identifier text, which is also what `pat.to_token_stream().to_string()`
  yields.
* The `unwrap` in the qualifier-stripping step is fallible, so the
  parameter-list renderer returns `Option String`; `none` models the panic.
-/

/-- A type as written in a signature position. -/
inductive Ty where
  | builtin (rustName : String) (swiftName : String)
  | declared (name : String)
  | ref (mutable : Bool) (inner : Ty)

/-- Modelled from the spec: `BuiltInType::with_type` composed with
`BuiltInType::to_swift` lives in `build_in_types.rs`, which is not among the
sources.  Per the spec (sections 2 and 3) the classifier answers the target
spelling for a boundary-native type and nothing for a handle-backed custom
type, and reference or mutability qualifiers never change the
classification. -/
def BuiltInType.with_type : Ty → Option String
  | .builtin _ swiftName => some swiftName
  | .declared _ => none
  | .ref _ inner => BuiltInType.with_type inner

/-- The token text of a type as `to_token_stream().to_string()` renders it,
kept as the list of whitespace-separated tokens: `&mut Foo` prints as
`& mut Foo`, giving the list `["&", "mut", "Foo"]`. -/
def Ty.tokenList : Ty → List String
  | .builtin rustName _ => [rustName]
  | .declared name => [name]
  | .ref false inner => "&" :: inner.tokenList
  | .ref true inner => "&" :: "mut" :: inner.tokenList

/-- `ty.to_token_stream().to_string().split_whitespace().last()` from the
source: the last nonempty token of the printed type; `none` is the case in
which the `unwrap` would panic. -/
def stripQualifiers (ty : Ty) : Option String :=
  (ty.tokenList.filter fun t => decide (t ≠ "")).getLast?

/-- A parameter pattern: in extern declarations these are plain identifiers,
and `pat.to_token_stream().to_string()` is the identifier text. -/
structure Pat where
  name : String

/-- `syn::FnArg`: either a shorthand receiver (`self`, `&self`, `&mut self`),
whose reference and mutability flags the source ignores, or a typed
pattern-and-type parameter such as `other: &mut Foo` or `self: Foo`. -/
inductive FnArg where
  | receiver (reference : Bool) (mutable : Bool)
  | typed (pat : Pat) (ty : Ty)

/-- `self.func.sig`: the ordered inputs plus the optional return type
(`ReturnType::Default` is `none`). -/
structure Signature where
  inputs : List FnArg
  output : Option Ty

/-- `ParsedExternFn`, reduced to the one field the three methods read. -/
structure ParsedExternFn where
  sig : Signature

/-- Rust `Vec::join(", ")`. -/
def joinComma : List String → String
  | [] => ""
  | [s] => s
  | s :: t :: rest => s ++ ", " ++ joinComma (t :: rest)

/-- The vector of parameter declarations that
`to_swift_param_names_and_types` pushes before the final join.  The receiver
branch pushes the synthetic entry only when the flag is set; a typed
parameter whose pattern is the identifier `self` is skipped before anything
else happens; otherwise a built-in renders as `name: SwiftSpelling` and any
other type has its qualifiers stripped textually.  Every pushed entry gets
the anonymous-label marker `_ ` in front. -/
def paramStrings : List FnArg → Bool → Option (List String)
  | [], _ => some []
  | FnArg.receiver _ _ :: rest, incl =>
      (paramStrings rest incl).map fun ps =>
        if incl then "_ this: UnsafeMutableRawPointer" :: ps else ps
  | FnArg.typed pat ty :: rest, incl =>
      if pat.name = "self" then
        paramStrings rest incl
      else
        match BuiltInType.with_type ty with
        | some swiftName =>
            (paramStrings rest incl).map fun ps =>
              ("_ " ++ (pat.name ++ ": " ++ swiftName)) :: ps
        | none =>
            match stripQualifiers ty with
            | none => none
            | some base =>
                (paramStrings rest incl).map fun ps =>
                  ("_ " ++ (pat.name ++ ": " ++ base)) :: ps

/-- `ParsedExternFn::to_swift_param_names_and_types`. -/
def ParsedExternFn.to_swift_param_names_and_types
    (f : ParsedExternFn) (include_receiver_if_present : Bool) : Option String :=
  (paramStrings f.sig.inputs include_receiver_if_present).map joinComma

/-- The vector of call arguments that `to_swift_call_args` pushes before the
join.  The flag is consulted only in the receiver branch; a typed parameter
is always rendered, as the bare identifier when its type is built-in and as
`identifier.ptr` otherwise.  There is no special case for a typed `self`
pattern here. -/
def argStrings : List FnArg → Bool → List String
  | [], _ => []
  | FnArg.receiver _ _ :: rest, incl =>
      if incl then "ptr" :: argStrings rest incl else argStrings rest incl
  | FnArg.typed pat ty :: rest, incl =>
      (match BuiltInType.with_type ty with
       | some _ => pat.name
       | none => pat.name ++ ".ptr") :: argStrings rest incl

/-- `ParsedExternFn::to_swift_call_args`. -/
def ParsedExternFn.to_swift_call_args
    (f : ParsedExternFn) (include_receiver_if_present : Bool) : String :=
  joinComma (argStrings f.sig.inputs include_receiver_if_present)

/-- `ParsedExternFn::to_swift_return`. -/
def ParsedExternFn.to_swift_return (f : ParsedExternFn) : String :=
  match f.sig.output with
  | none => ""
  | some ty =>
      match BuiltInType.with_type ty with
      | some swiftName => " -> " ++ swiftName
      | none => " -> UnsafeMutableRawPointer"

/-- Is this argument the shorthand receiver form `FnArg::Receiver`? -/
def FnArg.isReceiver : FnArg → Bool
  | .receiver _ _ => true
  | .typed _ _ => false

/-- Is this argument a typed parameter whose pattern is the identifier
`self`? -/
def FnArg.isTypedSelf : FnArg → Bool
  | .typed pat _ => decide (pat.name = "self")
  | .receiver _ _ => false

/-- Well-formedness of a type coming out of `syn`: every printed token is
nonempty (identifiers in `syn` are never empty). -/
def Ty.wfTokens (ty : Ty) : Prop := ∀ t ∈ ty.tokenList, t ≠ ""

instance (ty : Ty) : Decidable ty.wfTokens :=
  inferInstanceAs (Decidable (∀ t ∈ ty.tokenList, t ≠ ""))

/-- Well-formedness of an argument coming out of `syn`: pattern identifiers
are nonempty and the type prints to nonempty tokens. -/
def FnArg.wf : FnArg → Prop
  | .receiver _ _ => True
  | .typed pat ty => pat.name ≠ "" ∧ ty.wfTokens

instance : (a : FnArg) → Decidable a.wf
  | .receiver _ _ => isTrue trivial
  | .typed pat ty => inferInstanceAs (Decidable (pat.name ≠ "" ∧ ty.wfTokens))

/-- Prepend one entry to an already comma-joined list. -/
def commaPrepend (x s : String) : String :=
  if s = "" then x else x ++ ", " ++ s

lemma append_ne_empty_left (a b : String) (h : a ≠ "") : a ++ b ≠ "" := by
  intro hab
  apply h
  have hd := congrArg String.data hab
  rw [String.data_append] at hd
  exact String.ext (List.append_eq_nil.mp hd).1

lemma Ty.tokenList_ne_nil (ty : Ty) : ty.tokenList ≠ [] := by
  cases ty with
  | builtin rustName swiftName => simp [Ty.tokenList]
  | declared name => simp [Ty.tokenList]
  | ref m inner => cases m <;> simp [Ty.tokenList]

lemma stripQualifiers_eq_some (ty : Ty) (h : ty.wfTokens) :
    ∃ base, stripQualifiers ty = some base := by
  have hfilter : ty.tokenList.filter (fun t => decide (t ≠ "")) = ty.tokenList :=
    List.filter_eq_self.mpr fun a ha => decide_eq_true (h a ha)
  have hsome : (ty.tokenList.getLast?).isSome :=
    List.getLast?_isSome.mpr ty.tokenList_ne_nil
  obtain ⟨base, hbase⟩ := Option.isSome_iff_exists.mp hsome
  exact ⟨base, by rw [stripQualifiers, hfilter, hbase]⟩

lemma paramStrings_flag (l : List FnArg) (h : ∀ a ∈ l, a.isReceiver = false) :
    paramStrings l true = paramStrings l false := by
  induction l with
  | nil => rfl
  | cons a rest ih =>
    have ih' := ih fun x hx => h x (List.mem_cons_of_mem _ hx)
    cases a with
    | receiver r m =>
        exact absurd (h _ (List.mem_cons_self _ _)) (by simp [FnArg.isReceiver])
    | typed pat ty =>
        by_cases hs : pat.name = "self"
        · simp [paramStrings, hs, ih']
        · cases hbt : BuiltInType.with_type ty with
          | some sw => simp [paramStrings, hs, hbt, ih']
          | none =>
              cases hsq : stripQualifiers ty with
              | none => simp [paramStrings, hs, hbt, hsq]
              | some base => simp [paramStrings, hs, hbt, hsq, ih']

lemma argStrings_flag (l : List FnArg) (h : ∀ a ∈ l, a.isReceiver = false) :
    argStrings l true = argStrings l false := by
  induction l with
  | nil => rfl
  | cons a rest ih =>
    have ih' := ih fun x hx => h x (List.mem_cons_of_mem _ hx)
    cases a with
    | receiver r m =>
        exact absurd (h _ (List.mem_cons_self _ _)) (by simp [FnArg.isReceiver])
    | typed pat ty => simp [argStrings, ih']

lemma paramStrings_ne_empty (l : List FnArg) (incl : Bool) (ps : List String)
    (h : paramStrings l incl = some ps) : ∀ s ∈ ps, s ≠ "" := by
  induction l generalizing ps with
  | nil =>
      obtain rfl : ([] : List String) = ps := by simpa [paramStrings] using h
      intro s hs
      exact absurd hs (List.not_mem_nil s)
  | cons a rest ih =>
    cases a with
    | receiver r m =>
        cases hrest : paramStrings rest incl with
        | none => rw [paramStrings, hrest] at h; exact absurd h (by simp)
        | some qs =>
            have hqs := ih qs hrest
            rw [paramStrings, hrest] at h
            cases incl with
            | false =>
                obtain rfl : qs = ps := by simpa using h
                exact hqs
            | true =>
                obtain rfl : "_ this: UnsafeMutableRawPointer" :: qs = ps := by
                  simpa using h
                intro s hs
                rcases List.mem_cons.mp hs with rfl | hs
                · decide
                · exact hqs s hs
    | typed pat ty =>
        by_cases hself : pat.name = "self"
        · rw [paramStrings, if_pos hself] at h
          exact ih ps h
        · rw [paramStrings, if_neg hself] at h
          cases hbt : BuiltInType.with_type ty with
          | some sw =>
              rw [hbt] at h
              cases hrest : paramStrings rest incl with
              | none => rw [hrest] at h; exact absurd h (by simp)
              | some qs =>
                  rw [hrest] at h
                  obtain rfl : ("_ " ++ (pat.name ++ ": " ++ sw)) :: qs = ps := by
                    simpa using h
                  intro s hs
                  rcases List.mem_cons.mp hs with rfl | hs
                  · exact append_ne_empty_left _ _ (by decide)
                  · exact ih qs hrest s hs
          | none =>
              rw [hbt] at h
              cases hsq : stripQualifiers ty with
              | none => rw [hsq] at h; exact absurd h (by simp)
              | some base =>
                  rw [hsq] at h
                  cases hrest : paramStrings rest incl with
                  | none => rw [hrest] at h; exact absurd h (by simp)
                  | some qs =>
                      rw [hrest] at h
                      obtain rfl : ("_ " ++ (pat.name ++ ": " ++ base)) :: qs = ps := by
                        simpa using h
                      intro s hs
                      rcases List.mem_cons.mp hs with rfl | hs
                      · exact append_ne_empty_left _ _ (by decide)
                      · exact ih qs hrest s hs

lemma argStrings_ne_empty (l : List FnArg) (incl : Bool)
    (hwf : ∀ a ∈ l, a.wf) : ∀ s ∈ argStrings l incl, s ≠ "" := by
  induction l with
  | nil => intro s hs; exact absurd hs (List.not_mem_nil s)
  | cons a rest ih =>
    have ih' := ih fun x hx => hwf x (List.mem_cons_of_mem _ hx)
    cases a with
    | receiver r m =>
        cases incl with
        | false => simpa [argStrings] using ih'
        | true =>
            intro s hs
            rcases List.mem_cons.mp (by simpa [argStrings] using hs) with rfl | hs
            · decide
            · exact ih' s hs
    | typed pat ty =>
        have hname : pat.name ≠ "" := (hwf _ (List.mem_cons_self _ _)).1
        intro s hs
        rcases List.mem_cons.mp (by simpa [argStrings] using hs) with rfl | hs
        · cases hbt : BuiltInType.with_type ty with
          | some sw => simpa [hbt] using hname
          | none => simpa [hbt] using append_ne_empty_left _ _ hname
        · exact ih' s hs

lemma joinComma_ne_empty (l : List String) (hne : l ≠ [])
    (h : ∀ s ∈ l, s ≠ "") : joinComma l ≠ "" := by
  cases l with
  | nil => exact absurd rfl hne
  | cons s rest =>
    cases rest with
    | nil => simpa [joinComma] using h s (List.mem_cons_self _ _)
    | cons t more =>
        show s ++ ", " ++ joinComma (t :: more) ≠ ""
        exact append_ne_empty_left _ _
          (append_ne_empty_left _ _ (h s (List.mem_cons_self _ _)))

lemma joinComma_cons (x : String) (l : List String) (h : ∀ s ∈ l, s ≠ "") :
    joinComma (x :: l) = commaPrepend x (joinComma l) := by
  cases l with
  | nil => simp [joinComma, commaPrepend]
  | cons t more =>
      have hne : joinComma (t :: more) ≠ "" :=
        joinComma_ne_empty _ (List.cons_ne_nil t more) h
      show x ++ ", " ++ joinComma (t :: more) = commaPrepend x (joinComma (t :: more))
      rw [commaPrepend, if_neg hne]

lemma paramStrings_total (l : List FnArg) (incl : Bool)
    (hwf : ∀ a ∈ l, a.wf) : ∃ ps, paramStrings l incl = some ps := by
  induction l with
  | nil => exact ⟨[], rfl⟩
  | cons a rest ih =>
    obtain ⟨ps, hps⟩ := ih fun x hx => hwf x (List.mem_cons_of_mem _ hx)
    cases a with
    | receiver r m =>
        exact ⟨_, by rw [paramStrings, hps]; rfl⟩
    | typed pat ty =>
        by_cases hself : pat.name = "self"
        · exact ⟨ps, by rw [paramStrings, if_pos hself, hps]⟩
        · cases hbt : BuiltInType.with_type ty with
          | some sw =>
              exact ⟨_, by rw [paramStrings, if_neg hself, hbt, hps]; rfl⟩
          | none =>
              obtain ⟨base, hbase⟩ :=
                stripQualifiers_eq_some ty (hwf _ (List.mem_cons_self _ _)).2
              exact ⟨_, by rw [paramStrings, if_neg hself, hbt, hbase, hps]; rfl⟩

/-- One parameter declaration and one call argument describe the same slot of
the call: either both are the synthetic receiver rendering, or they share the
same identifier, with the argument forwarding either the bare identifier or
its `.ptr` handle field. -/
def correspond (p a : String) : Prop :=
  (p = "_ this: UnsafeMutableRawPointer" ∧ a = "ptr")
  ∨ ∃ name tyStr, p = "_ " ++ (name ++ ": " ++ tyStr) ∧ (a = name ∨ a = name ++ ".ptr")

/-- C1 (counterexample): for the receiver spelling `self: Foo` with
`include_receiver` true, `to_swift_param_names_and_types` emits no synthetic
opaque-handle parameter at all (the typed `self` pattern is skipped before
the flag is consulted), and `to_swift_call_args` emits `self.ptr`, not the
receiver handle token `ptr`. -/
theorem typed_self_receiver_not_materialized :
    ParsedExternFn.to_swift_param_names_and_types
        ⟨⟨[FnArg.typed ⟨"self"⟩ (Ty.declared ("Foo"))], none⟩⟩ true = some ("")
    ∧ ParsedExternFn.to_swift_call_args
        ⟨⟨[FnArg.typed ⟨"self"⟩ (Ty.declared ("Foo"))], none⟩⟩ true = "self.ptr"
    ∧ ("self.ptr" : String) ≠ "ptr" :=
  ⟨rfl, rfl, by decide⟩

/-- C1 (amended): for the three shorthand receiver spellings (`self`,
`&self`, `&mut self`), with `include_receiver` true the parameter list gets
exactly the synthetic entry `_ this: UnsafeMutableRawPointer` in first
position and the call-argument list gets exactly `ptr` in first position;
for the typed spellings (`self: T`, `self: &T`, `self: &mut T`) the
parameter list gets nothing for the receiver, while the call-argument list
renders it like an ordinary parameter, as `self.ptr` for a declared type. -/
theorem receiver_materialization_amended (r m b : Bool) (rest : List FnArg) (ty : Ty) :
    paramStrings (FnArg.receiver r m :: rest) true
      = (paramStrings rest true).map (fun ps => "_ this: UnsafeMutableRawPointer" :: ps)
    ∧ argStrings (FnArg.receiver r m :: rest) true = "ptr" :: argStrings rest true
    ∧ paramStrings (FnArg.typed ⟨"self"⟩ ty :: rest) true = paramStrings rest true
    ∧ argStrings (FnArg.typed ⟨"self"⟩ (Ty.declared ("Foo")) :: rest) true
        = "self.ptr" :: argStrings rest true
    ∧ argStrings (FnArg.typed ⟨"self"⟩ (Ty.ref b (Ty.declared ("Foo"))) :: rest) true
        = "self.ptr" :: argStrings rest true :=
  ⟨rfl, rfl, rfl, rfl, rfl⟩

/-- C2 (counterexample): for the signature whose only input is the typed
receiver `self: &Foo` and `include_receiver` false, the parameter list is
empty while the call-argument list has one entry, so the two renderings do
not have the same length. -/
theorem typed_self_breaks_alignment :
    paramStrings [FnArg.typed ⟨"self"⟩ (Ty.ref false (Ty.declared ("Foo")))] false
      = some []
    ∧ argStrings [FnArg.typed ⟨"self"⟩ (Ty.ref false (Ty.declared ("Foo")))] false
      = ["self.ptr"]
    ∧ ([] : List String).length ≠ (["self.ptr"] : List String).length :=
  ⟨rfl, rfl, by decide⟩

/-- C2 (amended): for every signature in which no typed parameter is the
identifier `self` (so a receiver, if any, is the shorthand `FnArg::Receiver`
form), and whose identifiers and type tokens are nonempty, the parameter
declarations and the call arguments produced with the same
`include_receiver` flag have the same length and correspond position by
position: each pair is either the synthetic receiver declaration paired with
the handle token, or shares one identifier, forwarded bare or with the
`.ptr` handle field appended. -/
theorem call_args_align_with_params (inputs : List FnArg) (incl : Bool)
    (hself : ∀ a ∈ inputs, a.isTypedSelf = false)
    (hwf : ∀ a ∈ inputs, a.wf) :
    ∃ ps, paramStrings inputs incl = some ps
      ∧ ps.length = (argStrings inputs incl).length
      ∧ List.Forall₂ correspond ps (argStrings inputs incl) := by
  induction inputs with
  | nil => exact ⟨[], rfl, rfl, List.Forall₂.nil⟩
  | cons a rest ih =>
    obtain ⟨ps, hps, hlen, hcorr⟩ :=
      ih (fun x hx => hself x (List.mem_cons_of_mem _ hx))
        (fun x hx => hwf x (List.mem_cons_of_mem _ hx))
    cases a with
    | receiver r m =>
        cases incl with
        | false =>
            refine ⟨ps, ?_, ?_, ?_⟩
            · rw [paramStrings, hps]; rfl
            · simpa [argStrings] using hlen
            · simpa [argStrings] using hcorr
        | true =>
            refine ⟨"_ this: UnsafeMutableRawPointer" :: ps, ?_, ?_, ?_⟩
            · rw [paramStrings, hps]; rfl
            · simp [argStrings, hlen]
            · show List.Forall₂ correspond _ ("ptr" :: argStrings rest true)
              exact List.Forall₂.cons (Or.inl ⟨rfl, rfl⟩) hcorr
    | typed pat ty =>
        have hns : pat.name ≠ "self" := by
          have h0 := hself _ (List.mem_cons_self _ _)
          simpa [FnArg.isTypedSelf] using h0
        have hw : pat.name ≠ "" ∧ ty.wfTokens := hwf _ (List.mem_cons_self _ _)
        cases hbt : BuiltInType.with_type ty with
        | some sw =>
            refine ⟨("_ " ++ (pat.name ++ ": " ++ sw)) :: ps, ?_, ?_, ?_⟩
            · rw [paramStrings, if_neg hns, hbt, hps]; rfl
            · simp [argStrings, hlen]
            · show List.Forall₂ correspond _
                ((match BuiltInType.with_type ty with
                  | some _ => pat.name
                  | none => pat.name ++ ".ptr") :: argStrings rest incl)
              rw [hbt]
              exact List.Forall₂.cons (Or.inr ⟨pat.name, sw, rfl, Or.inl rfl⟩) hcorr
        | none =>
            obtain ⟨base, hbase⟩ := stripQualifiers_eq_some ty hw.2
            refine ⟨("_ " ++ (pat.name ++ ": " ++ base)) :: ps, ?_, ?_, ?_⟩
            · rw [paramStrings, if_neg hns, hbt, hbase, hps]; rfl
            · simp [argStrings, hlen]
            · show List.Forall₂ correspond _
                ((match BuiltInType.with_type ty with
                  | some _ => pat.name
                  | none => pat.name ++ ".ptr") :: argStrings rest incl)
              rw [hbt]
              exact List.Forall₂.cons (Or.inr ⟨pat.name, base, rfl, Or.inr rfl⟩) hcorr

/-- C2 (witness): the amended alignment at a concrete signature with a
shorthand receiver, a built-in parameter and a declared-type parameter. -/
theorem call_args_align_with_params_witness :
    ∃ ps,
      paramStrings
          [FnArg.receiver true true,
            FnArg.typed ⟨"count"⟩ (Ty.builtin ("u32") ("UInt32")),
            FnArg.typed ⟨"other"⟩ (Ty.ref false (Ty.declared ("Foo")))] true = some ps
        ∧ ps.length
            = (argStrings
                [FnArg.receiver true true,
                  FnArg.typed ⟨"count"⟩ (Ty.builtin ("u32") ("UInt32")),
                  FnArg.typed ⟨"other"⟩ (Ty.ref false (Ty.declared ("Foo")))] true).length
        ∧ List.Forall₂ correspond ps
            (argStrings
              [FnArg.receiver true true,
                FnArg.typed ⟨"count"⟩ (Ty.builtin ("u32") ("UInt32")),
                FnArg.typed ⟨"other"⟩ (Ty.ref false (Ty.declared ("Foo")))] true) :=
  call_args_align_with_params _ true (by decide) (by decide)

/-- C3 (counterexample): with a shorthand receiver `&self` and
`include_receiver` true, `to_swift_call_args` emits the token `ptr` while
`to_swift_param_names_and_types` binds the local name `this` in its
synthetic entry `_ this: UnsafeMutableRawPointer`; the two fixed names are
different strings. -/
theorem receiver_call_token_differs_from_bound_name :
    ParsedExternFn.to_swift_call_args ⟨⟨[FnArg.receiver true false], none⟩⟩ true = "ptr"
    ∧ ParsedExternFn.to_swift_param_names_and_types
        ⟨⟨[FnArg.receiver true false], none⟩⟩ true
      = some ("_ this: UnsafeMutableRawPointer")
    ∧ ("ptr" : String) ≠ "this" :=
  ⟨rfl, rfl, by decide⟩

/-- C3 (amended): when a shorthand receiver is present and
`include_receiver` is true, `to_swift_call_args` emits the fixed name `ptr`
and `to_swift_param_names_and_types` emits the fixed synthetic entry
`_ this: UnsafeMutableRawPointer`, whose bound local name is `this`; both
are fixed, but they are two different names. -/
theorem receiver_fixed_names_amended (r m : Bool) :
    ParsedExternFn.to_swift_call_args ⟨⟨[FnArg.receiver r m], none⟩⟩ true = "ptr"
    ∧ ParsedExternFn.to_swift_param_names_and_types
        ⟨⟨[FnArg.receiver r m], none⟩⟩ true
      = some ("_ this: UnsafeMutableRawPointer") :=
  ⟨rfl, rfl⟩

/-- C4 (counterexample): for the receiver spelling `self: &mut Foo` as only
input, `to_swift_call_args` with `include_receiver` false yields `self.ptr`,
not the empty string: the typed `self` pattern has no special case in the
call-argument renderer. -/
theorem typed_self_call_args_not_empty :
    ParsedExternFn.to_swift_call_args
        ⟨⟨[FnArg.typed ⟨"self"⟩ (Ty.ref true (Ty.declared ("Foo")))], none⟩⟩ false
      = "self.ptr"
    ∧ ("self.ptr" : String) ≠ "" :=
  ⟨rfl, by decide⟩

/-- C4 (amended): with `include_receiver` false, a shorthand receiver
(`self`, `&self`, `&mut self`) as only input makes `to_swift_call_args`
yield the empty string, but the typed spellings (`self: Foo`, `self: &Foo`,
`self: &mut Foo`) are rendered like ordinary declared-type parameters and
yield `self.ptr` regardless of the flag. -/
theorem receiver_excluded_from_call_args_amended (r m b : Bool) :
    ParsedExternFn.to_swift_call_args ⟨⟨[FnArg.receiver r m], none⟩⟩ false = ""
    ∧ ParsedExternFn.to_swift_call_args
        ⟨⟨[FnArg.typed ⟨"self"⟩ (Ty.declared ("Foo"))], none⟩⟩ false = "self.ptr"
    ∧ ParsedExternFn.to_swift_call_args
        ⟨⟨[FnArg.typed ⟨"self"⟩ (Ty.ref b (Ty.declared ("Foo")))], none⟩⟩ false
      = "self.ptr" :=
  ⟨rfl, rfl, rfl⟩

/-- C5: for every signature whose only parameter is a receiver, in any of
the six spellings (the shorthand forms for all flag combinations, and the
typed `self: T` form for every type `T`), `to_swift_param_names_and_types`
with `include_receiver` false yields the empty string. -/
theorem receiver_excluded_from_params (r m : Bool) (ty : Ty) :
    ParsedExternFn.to_swift_param_names_and_types
        ⟨⟨[FnArg.receiver r m], none⟩⟩ false = some ("")
    ∧ ParsedExternFn.to_swift_param_names_and_types
        ⟨⟨[FnArg.typed ⟨"self"⟩ ty], none⟩⟩ false = some ("") :=
  ⟨rfl, rfl⟩

/-- C6: a named parameter of a declared (non-built-in) type renders with all
reference and mutability qualifiers stripped: `other: Foo`, `other: &Foo`
and `other: &mut Foo` all render as `_ other: Foo` under
`to_swift_param_names_and_types` with `include_receiver` false. -/
theorem declared_type_param_strips_qualifiers :
    ParsedExternFn.to_swift_param_names_and_types
        ⟨⟨[FnArg.typed ⟨"other"⟩ (Ty.declared ("Foo"))], none⟩⟩ false
      = some ("_ other: Foo")
    ∧ ParsedExternFn.to_swift_param_names_and_types
        ⟨⟨[FnArg.typed ⟨"other"⟩ (Ty.ref false (Ty.declared ("Foo")))], none⟩⟩ false
      = some ("_ other: Foo")
    ∧ ParsedExternFn.to_swift_param_names_and_types
        ⟨⟨[FnArg.typed ⟨"other"⟩ (Ty.ref true (Ty.declared ("Foo")))], none⟩⟩ false
      = some ("_ other: Foo") :=
  ⟨rfl, rfl, rfl⟩

/-- C7: a named parameter of a declared (non-built-in) type forwards its
handle field: `other: Foo`, `other: &Foo` and `other: &mut Foo` all render
as `other.ptr` under `to_swift_call_args`, while a built-in parameter
renders as its bare identifier. -/
theorem declared_type_call_args_use_ptr (p : Pat) (rn sw : String) :
    ParsedExternFn.to_swift_call_args
        ⟨⟨[FnArg.typed ⟨"other"⟩ (Ty.declared ("Foo"))], none⟩⟩ true = "other.ptr"
    ∧ ParsedExternFn.to_swift_call_args
        ⟨⟨[FnArg.typed ⟨"other"⟩ (Ty.ref false (Ty.declared ("Foo")))], none⟩⟩ true
      = "other.ptr"
    ∧ ParsedExternFn.to_swift_call_args
        ⟨⟨[FnArg.typed ⟨"other"⟩ (Ty.ref true (Ty.declared ("Foo")))], none⟩⟩ true
      = "other.ptr"
    ∧ ParsedExternFn.to_swift_call_args
        ⟨⟨[FnArg.typed p (Ty.builtin rn sw)], none⟩⟩ true = p.name :=
  ⟨rfl, rfl, rfl, rfl⟩

/-- C8: `to_swift_return` yields the empty string when no return type is
declared, yields the arrow clause with the built-in spelling when the
classifier knows the type, and yields the fixed clause
` -> UnsafeMutableRawPointer` for every type the classifier does not know,
whatever its reference or mutability qualifiers. -/
theorem return_clause_spec :
    (∀ inputs : List FnArg, ParsedExternFn.to_swift_return ⟨⟨inputs, none⟩⟩ = "")
    ∧ (∀ (inputs : List FnArg) (ty : Ty) (sw : String),
        BuiltInType.with_type ty = some sw →
        ParsedExternFn.to_swift_return ⟨⟨inputs, some ty⟩⟩ = " -> " ++ sw)
    ∧ (∀ (inputs : List FnArg) (ty : Ty),
        BuiltInType.with_type ty = none →
        ParsedExternFn.to_swift_return ⟨⟨inputs, some ty⟩⟩
          = " -> UnsafeMutableRawPointer") := by
  refine ⟨fun _ => rfl, fun inputs ty sw h => ?_, fun inputs ty h => ?_⟩
  · simp only [ParsedExternFn.to_swift_return, h]
  · simp only [ParsedExternFn.to_swift_return, h]

/-- C8 (witness): the three return shapes at concrete types. -/
theorem return_clause_spec_witness :
    ParsedExternFn.to_swift_return ⟨⟨[], none⟩⟩ = ""
    ∧ ParsedExternFn.to_swift_return ⟨⟨[], some (Ty.builtin ("u8") ("UInt8"))⟩⟩
      = " -> UInt8"
    ∧ ParsedExternFn.to_swift_return ⟨⟨[], some (Ty.ref true (Ty.declared ("Foo")))⟩⟩
      = " -> UnsafeMutableRawPointer" :=
  ⟨return_clause_spec.1 [],
    return_clause_spec.2.1 [] (Ty.builtin ("u8") ("UInt8")) ("UInt8") rfl,
    return_clause_spec.2.2 [] (Ty.ref true (Ty.declared ("Foo"))) rfl⟩

/-- C9: the `include_receiver` flag only governs the receiver token.  For a
well-formed signature whose receiver, if any, is the shorthand
`FnArg::Receiver` form in first position, the renderings with the flag set
equal the renderings with the flag cleared with the synthetic receiver
declaration, respectively the handle token `ptr`, prepended comma-joined;
without a shorthand receiver in first position they are equal outright. -/
theorem include_receiver_flag_scope (f : ParsedExternFn)
    (htail : ∀ a ∈ f.sig.inputs.tail, a.isReceiver = false)
    (hwf : ∀ a ∈ f.sig.inputs, a.wf) :
    match f.sig.inputs.head? with
    | some (FnArg.receiver _ _) =>
        f.to_swift_param_names_and_types true
          = (f.to_swift_param_names_and_types false).map
              (commaPrepend "_ this: UnsafeMutableRawPointer")
        ∧ f.to_swift_call_args true = commaPrepend "ptr" (f.to_swift_call_args false)
    | _ =>
        f.to_swift_param_names_and_types true = f.to_swift_param_names_and_types false
        ∧ f.to_swift_call_args true = f.to_swift_call_args false := by
  obtain ⟨⟨inputs, out⟩⟩ := f
  cases inputs with
  | nil => exact ⟨rfl, rfl⟩
  | cons a rest =>
    cases a with
    | typed pat ty =>
        have hall : ∀ x ∈ FnArg.typed pat ty :: rest, x.isReceiver = false := by
          intro x hx
          rcases List.mem_cons.mp hx with rfl | hx
          · rfl
          · exact htail x hx
        refine ⟨?_, ?_⟩
        · show (paramStrings (FnArg.typed pat ty :: rest) true).map joinComma
            = (paramStrings (FnArg.typed pat ty :: rest) false).map joinComma
          rw [paramStrings_flag _ hall]
        · show joinComma (argStrings (FnArg.typed pat ty :: rest) true)
            = joinComma (argStrings (FnArg.typed pat ty :: rest) false)
          rw [argStrings_flag _ hall]
    | receiver r m =>
        have hrest : ∀ x ∈ rest, x.isReceiver = false := fun x hx => htail x hx
        refine ⟨?_, ?_⟩
        · show (paramStrings (FnArg.receiver r m :: rest) true).map joinComma
            = ((paramStrings (FnArg.receiver r m :: rest) false).map joinComma).map
                (commaPrepend "_ this: UnsafeMutableRawPointer")
          have h1 : paramStrings (FnArg.receiver r m :: rest) true
              = (paramStrings rest false).map
                  (fun ps => "_ this: UnsafeMutableRawPointer" :: ps) := by
            show (paramStrings rest true).map
                (fun ps => "_ this: UnsafeMutableRawPointer" :: ps) = _
            rw [paramStrings_flag _ hrest]
          have h2 : paramStrings (FnArg.receiver r m :: rest) false
              = paramStrings rest false := by
            show (paramStrings rest false).map (fun ps => ps) = _
            cases paramStrings rest false <;> rfl
          rw [h1, h2]
          cases hps : paramStrings rest false with
          | none => rfl
          | some ps =>
              show some (joinComma ("_ this: UnsafeMutableRawPointer" :: ps))
                = some (commaPrepend "_ this: UnsafeMutableRawPointer" (joinComma ps))
              rw [joinComma_cons _ _ (paramStrings_ne_empty rest false ps hps)]
        · show joinComma (argStrings (FnArg.receiver r m :: rest) true)
            = commaPrepend "ptr"
                (joinComma (argStrings (FnArg.receiver r m :: rest) false))
          have h1 : argStrings (FnArg.receiver r m :: rest) true
              = "ptr" :: argStrings rest false := by
            show "ptr" :: argStrings rest true = _
            rw [argStrings_flag _ hrest]
          have h2 : argStrings (FnArg.receiver r m :: rest) false
              = argStrings rest false := rfl
          rw [h1, h2,
            joinComma_cons _ _ (argStrings_ne_empty rest false
              (fun x hx => hwf x (List.mem_cons_of_mem _ hx)))]

/-- C9 (witness): the flag relation at a concrete two-parameter method
signature with a shorthand receiver in first position. -/
theorem include_receiver_flag_scope_witness :
    ParsedExternFn.to_swift_param_names_and_types
        ⟨⟨[FnArg.receiver true false,
            FnArg.typed ⟨"count"⟩ (Ty.builtin ("u32") ("UInt32"))], none⟩⟩ true
      = ((ParsedExternFn.to_swift_param_names_and_types
            ⟨⟨[FnArg.receiver true false,
                FnArg.typed ⟨"count"⟩ (Ty.builtin ("u32") ("UInt32"))], none⟩⟩ false).map
          (commaPrepend "_ this: UnsafeMutableRawPointer"))
    ∧ ParsedExternFn.to_swift_call_args
        ⟨⟨[FnArg.receiver true false,
            FnArg.typed ⟨"count"⟩ (Ty.builtin ("u32") ("UInt32"))], none⟩⟩ true
      = commaPrepend "ptr"
          (ParsedExternFn.to_swift_call_args
            ⟨⟨[FnArg.receiver true false,
                FnArg.typed ⟨"count"⟩ (Ty.builtin ("u32") ("UInt32"))], none⟩⟩ false) :=
  include_receiver_flag_scope
    ⟨⟨[FnArg.receiver true false,
        FnArg.typed ⟨"count"⟩ (Ty.builtin ("u32") ("UInt32"))], none⟩⟩
    (by decide) (by decide)

/-- C10: `to_swift_param_names_and_types` is total on well-formed
signatures: when every pattern identifier and every printed type token is
nonempty, the renderer returns a value, so the
`split_whitespace().last().unwrap()` step in the qualifier stripping never
panics. -/
theorem param_render_total (f : ParsedExternFn) (incl : Bool)
    (hwf : ∀ a ∈ f.sig.inputs, a.wf) :
    ∃ s, f.to_swift_param_names_and_types incl = some s := by
  obtain ⟨ps, hps⟩ := paramStrings_total f.sig.inputs incl hwf
  exact ⟨joinComma ps, by
    show (paramStrings f.sig.inputs incl).map joinComma = _
    rw [hps]; rfl⟩

/-- C10 (witness): totality at a concrete signature with a qualified
declared-type parameter. -/
theorem param_render_total_witness :
    ∃ s, ParsedExternFn.to_swift_param_names_and_types
        ⟨⟨[FnArg.typed ⟨"other"⟩ (Ty.ref true (Ty.declared ("Foo")))], none⟩⟩ true
      = some s :=
  param_render_total
    ⟨⟨[FnArg.typed ⟨"other"⟩ (Ty.ref true (Ty.declared ("Foo")))], none⟩⟩ true
    (by decide)
